import Mathlib

/-!
Verification of the MDC display-control client: the frame codec of
src/proto.rs, the session layer of src/client.rs, the command constants of
src/commands.rs and the error type of src/lib.rs.

Modelling choices.  Bytes are `Nat`, reduced modulo 256 exactly where the
source truncates with an `as u8` cast; every summand of the checksum is
nonnegative, so the i32 sum followed by the `as u8` cast is reduction of the
exact sum modulo 256.  Byte buffers are `List Nat`.  The in-place mutation of
the parse buffer in `Packet::from_bytes` is modelled by state passing: the
function returns the parse result together with the buffer as it stands after
the call, so each early `return Err` pairs the error with the untouched input
and the success path pairs the packet with the drained buffer.  The byte
stream a session reads from is modelled as the list of chunks that successive
`read` calls return; an exhausted list or an empty chunk models a zero-byte
read (the peer closed the stream).  Bytes written to the stream are collected
in an `outbound` list.  Read and write calls themselves never fail in the
model, so the Io variant of the crate error is not modelled.
-/

namespace Commands

/-- Constant DISPLAY_BROADCAST of src/commands.rs: special display id to send
a command to all displays. -/
def DISPLAY_BROADCAST : Nat := 0xFE

/-- Constant ACK_NACK of src/commands.rs: acknowledge or not-acknowledge
response command id. -/
def ACK_NACK : Nat := 0xFF

/-- Constant POWER_CONTROL of src/commands.rs: control power state of
display. -/
def POWER_CONTROL : Nat := 0x11

/-- Constant PANEL_ON_OFF of src/commands.rs: control panel on or off. -/
def PANEL_ON_OFF : Nat := 0xF9

end Commands

namespace Proto

/-- Enum Error of src/proto.rs: errors that can occur during packet
parsing. -/
inductive Error where
  | InvalidHeader
  | IncompleteInput
  | InvalidChecksum
deriving DecidableEq

/-- Struct Packet of src/proto.rs: a packet sent over an MDC connection. -/
structure Packet where
  command : Nat
  display_id : Nat
  data : List Nat
deriving DecidableEq

/-- Packet::new of src/proto.rs. -/
def Packet.new (command : Nat) (display_id : Nat) (data : List Nat) : Packet :=
  { command := command, display_id := display_id, data := data }

/-- Packet::checksum of src/proto.rs: the i32 sum of the command, the display
id, the payload length and the payload bytes, cast to u8.  All summands are
nonnegative, so the cast is reduction of the exact sum modulo 256. -/
def Packet.checksum (p : Packet) : Nat :=
  (p.command + p.display_id + p.data.length + p.data.sum) % 256

/-- Packet::into_bytes of src/proto.rs: the header byte 0xAA, the command
byte, the display id byte, the payload length cast to u8, the payload bytes,
then the checksum byte. -/
def Packet.into_bytes (p : Packet) : List Nat :=
  0xAA :: p.command :: p.display_id :: (p.data.length % 256) :: (p.data ++ [p.checksum])

/-- Packet::from_bytes of src/proto.rs, with the in-place buffer mutation
made explicit: the result is paired with the buffer as it stands after the
call.  Every early error return leaves the buffer untouched; the success path
drains the first 4 + data_length + 1 bytes, keeping bytes 4 to
4 + data_length as the payload, exactly as the drain-skip-take chain of the
source does. -/
def Packet.from_bytes (input : List Nat) : Except Error (Packet × Nat) × List Nat :=
  match input[0]? with
  | none => (.error .IncompleteInput, input)
  | some header =>
    if header ≠ 0xAA then (.error .InvalidHeader, input)
    else
      match input[1]? with
      | none => (.error .IncompleteInput, input)
      | some command =>
        match input[2]? with
        | none => (.error .IncompleteInput, input)
        | some display_id =>
          match input[3]? with
          | none => (.error .IncompleteInput, input)
          | some data_length =>
            match input[4 + data_length]? with
            | none => (.error .IncompleteInput, input)
            | some given_checksum =>
              let checksum :=
                (command + display_id + data_length +
                  ((input.drop 4).take data_length).sum) % 256
              if checksum ≠ given_checksum then (.error .InvalidChecksum, input)
              else if input.length ≤ 4 + data_length then (.error .IncompleteInput, input)
              else
                let data := ((input.take (4 + data_length + 1)).drop 4).take data_length
                let bytes_red := 4 + data_length + 1
                (.ok ({ command := command, display_id := display_id, data := data },
                      bytes_red),
                 input.drop (4 + data_length + 1))

end Proto

namespace Crate

/-- Enum Error of src/lib.rs: the general error of MDC communication.  The Io
variant is not modelled, since reads and writes in the model always succeed.
The InvalidValue variant is modelled from the spec: get_power_status and
get_panel_status in src/client.rs propagate InvalidValueError with the
question-mark operator, but the crate error declares no variant for it and no
From conversion from InvalidValueError exists anywhere in the crate, so that
propagation does not type-check as written; the spec sentence that any other
byte value fails as an invalid status value requires such a variant, and the
model carries the failure through it. -/
inductive Error where
  | InvalidPacket (e : Proto.Error)
  | UnexpectedEndOfStream
  | UnexpectedResponse (p : Proto.Packet)
  | Nack (p : Proto.Packet)
  | InvalidValue
deriving DecidableEq

end Crate

namespace Client

/-- Constant INIT_BUFFER_SIZE of src/client.rs: the size of the scratch
region a single read fills at most. -/
def INIT_BUFFER_SIZE : Nat := 1024

/-- MDCSession::recv_packet of src/client.rs.  The loop parses the
accumulation buffer; on success it returns the packet, on IncompleteInput it
performs one read (the next chunk of the stream) and appends the bytes read
to the accumulation buffer before retrying, a zero-byte read failing with
UnexpectedEndOfStream, and on any other parse error it clears the
accumulation buffer and returns the error.  The result is returned together
with the final accumulation buffer and the rest of the stream.  The loop is
written here unrolled on the list of read events, one equation per shape of
the remaining stream, the parse step repeated verbatim in both. -/
def recv_packet : List (List Nat) → List Nat →
    Except Crate.Error Proto.Packet × List Nat × List (List Nat)
  | [], buffer =>
    match Proto.Packet.from_bytes buffer with
    | (.ok (p, _), buffer2) => (.ok p, buffer2, [])
    | (.error .IncompleteInput, _) => (.error .UnexpectedEndOfStream, buffer, [])
    | (.error e, _) => (.error (.InvalidPacket e), [], [])
  | chunk :: rest, buffer =>
    match Proto.Packet.from_bytes buffer with
    | (.ok (p, _), buffer2) => (.ok p, buffer2, chunk :: rest)
    | (.error .IncompleteInput, _) =>
      if chunk.length = 0 then (.error .UnexpectedEndOfStream, buffer, rest)
      else recv_packet rest (buffer ++ chunk)
    | (.error e, _) => (.error (.InvalidPacket e), [], chunk :: rest)

/-- MDCSession::send_packet of src/client.rs: encode the packet and write all
of its bytes to the stream.  Written bytes are collected in the outbound
list. -/
def send_packet (outbound : List Nat) (p : Proto.Packet) : List Nat :=
  outbound ++ p.into_bytes

/-- MDCSession::send_packet_ack of src/client.rs: send the packet, receive
one reply, require the reply command to be ACK_NACK (else fail with
UnexpectedResponse carrying the reply), then require the first payload byte
to exist and be the byte 0x41, the ASCII letter A (else fail with Nack
carrying the reply).  Returns the result together with the final accumulation
buffer, the rest of the stream and the outbound bytes. -/
def send_packet_ack (stream : List (List Nat)) (buffer : List Nat)
    (outbound : List Nat) (p : Proto.Packet) :
    Except Crate.Error Proto.Packet × List Nat × List (List Nat) × List Nat :=
  let outbound2 := send_packet outbound p
  match recv_packet stream buffer with
  | (.error e, buffer2, stream2) => (.error e, buffer2, stream2, outbound2)
  | (.ok response, buffer2, stream2) =>
    if response.command ≠ Commands.ACK_NACK then
      (.error (.UnexpectedResponse response), buffer2, stream2, outbound2)
    else
      match response.data.head? with
      | none => (.error (.Nack response), buffer2, stream2, outbound2)
      | some it =>
        if it ≠ 0x41 then (.error (.Nack response), buffer2, stream2, outbound2)
        else (.ok response, buffer2, stream2, outbound2)

/-- Enum PowerStatus of src/client.rs. -/
inductive PowerStatus where
  | On
  | Off
deriving DecidableEq

/-- Enum PanelStatus of src/client.rs. -/
inductive PanelStatus where
  | On
  | Off
deriving DecidableEq

/-- Struct InvalidValueError of src/client.rs. -/
structure InvalidValueError where
deriving DecidableEq

/-- PowerStatus::from_bytes of src/client.rs: byte 0x00 is On, byte 0x01 is
Off, anything else is InvalidValueError. -/
def PowerStatus.from_bytes (byte : Nat) : Except InvalidValueError PowerStatus :=
  match byte with
  | 0x00 => .ok .On
  | 0x01 => .ok .Off
  | _ => .error {}

/-- PanelStatus::from_bytes of src/client.rs: byte 0x00 is Off, byte 0x01 is
On, anything else is InvalidValueError. -/
def PanelStatus.from_bytes (byte : Nat) : Except InvalidValueError PanelStatus :=
  match byte with
  | 0x00 => .ok .Off
  | 0x01 => .ok .On
  | _ => .error {}

namespace DisplayCommandBuilder

/-- DisplayControl::set_panel_on for DisplayCommandBuilder in src/client.rs:
send PANEL_ON_OFF with payload [0] to the builder display id through
send_packet_ack, discarding the reply. -/
def set_panel_on (display_id : Nat) (stream : List (List Nat)) (buffer : List Nat)
    (outbound : List Nat) :
    Except Crate.Error Unit × List Nat × List (List Nat) × List Nat :=
  match send_packet_ack stream buffer outbound
      (Proto.Packet.new Commands.PANEL_ON_OFF display_id [0]) with
  | (.error e, rest) => (.error e, rest)
  | (.ok _, rest) => (.ok (), rest)

/-- DisplayControl::set_panel_off for DisplayCommandBuilder in src/client.rs:
send PANEL_ON_OFF with payload [1] to the builder display id through
send_packet_ack, discarding the reply. -/
def set_panel_off (display_id : Nat) (stream : List (List Nat)) (buffer : List Nat)
    (outbound : List Nat) :
    Except Crate.Error Unit × List Nat × List (List Nat) × List Nat :=
  match send_packet_ack stream buffer outbound
      (Proto.Packet.new Commands.PANEL_ON_OFF display_id [1]) with
  | (.error e, rest) => (.error e, rest)
  | (.ok _, rest) => (.ok (), rest)

/-- DisplayControl::set_power_on for DisplayCommandBuilder in src/client.rs:
send POWER_CONTROL with payload [1] to the builder display id through
send_packet_ack, discarding the reply. -/
def set_power_on (display_id : Nat) (stream : List (List Nat)) (buffer : List Nat)
    (outbound : List Nat) :
    Except Crate.Error Unit × List Nat × List (List Nat) × List Nat :=
  match send_packet_ack stream buffer outbound
      (Proto.Packet.new Commands.POWER_CONTROL display_id [1]) with
  | (.error e, rest) => (.error e, rest)
  | (.ok _, rest) => (.ok (), rest)

/-- DisplayControl::set_power_off for DisplayCommandBuilder in src/client.rs:
send POWER_CONTROL with payload [0] to the builder display id through
send_packet_ack, discarding the reply. -/
def set_power_off (display_id : Nat) (stream : List (List Nat)) (buffer : List Nat)
    (outbound : List Nat) :
    Except Crate.Error Unit × List Nat × List (List Nat) × List Nat :=
  match send_packet_ack stream buffer outbound
      (Proto.Packet.new Commands.POWER_CONTROL display_id [0]) with
  | (.error e, rest) => (.error e, rest)
  | (.ok _, rest) => (.ok (), rest)

/-- DisplayCommandBuilder::get_panel_status of src/client.rs: send
PANEL_ON_OFF with empty payload through send_packet_ack, then read the reply
payload byte at offset 2 (a missing byte fails with
InvalidPacket IncompleteInput) and parse it with PanelStatus::from_bytes,
an InvalidValueError surfacing as the invalid-value failure of the crate
error (see the note on Crate.Error). -/
def get_panel_status (display_id : Nat) (stream : List (List Nat)) (buffer : List Nat)
    (outbound : List Nat) :
    Except Crate.Error PanelStatus × List Nat × List (List Nat) × List Nat :=
  match send_packet_ack stream buffer outbound
      (Proto.Packet.new Commands.PANEL_ON_OFF display_id []) with
  | (.error e, rest) => (.error e, rest)
  | (.ok response, rest) =>
    match response.data[2]? with
    | none => (.error (.InvalidPacket .IncompleteInput), rest)
    | some value =>
      match PanelStatus.from_bytes value with
      | .error _ => (.error .InvalidValue, rest)
      | .ok status => (.ok status, rest)

/-- DisplayCommandBuilder::get_power_status of src/client.rs: send
POWER_CONTROL with empty payload through send_packet_ack, then read the reply
payload byte at offset 2 (a missing byte fails with
InvalidPacket IncompleteInput) and parse it with PowerStatus::from_bytes,
an InvalidValueError surfacing as the invalid-value failure of the crate
error (see the note on Crate.Error). -/
def get_power_status (display_id : Nat) (stream : List (List Nat)) (buffer : List Nat)
    (outbound : List Nat) :
    Except Crate.Error PowerStatus × List Nat × List (List Nat) × List Nat :=
  match send_packet_ack stream buffer outbound
      (Proto.Packet.new Commands.POWER_CONTROL display_id []) with
  | (.error e, rest) => (.error e, rest)
  | (.ok response, rest) =>
    match response.data[2]? with
    | none => (.error (.InvalidPacket .IncompleteInput), rest)
    | some value =>
      match PowerStatus.from_bytes value with
      | .error _ => (.error .InvalidValue, rest)
      | .ok status => (.ok status, rest)

end DisplayCommandBuilder

namespace BroadcastCommandBuilder

/-- DisplayControl::set_panel_on for BroadcastCommandBuilder in
src/client.rs: send PANEL_ON_OFF with payload [0] to DISPLAY_BROADCAST
through plain send_packet, awaiting no reply. -/
def set_panel_on (outbound : List Nat) : List Nat :=
  send_packet outbound (Proto.Packet.new Commands.PANEL_ON_OFF Commands.DISPLAY_BROADCAST [0])

/-- DisplayControl::set_panel_off for BroadcastCommandBuilder in
src/client.rs: send PANEL_ON_OFF with payload [1] to DISPLAY_BROADCAST
through plain send_packet, awaiting no reply. -/
def set_panel_off (outbound : List Nat) : List Nat :=
  send_packet outbound (Proto.Packet.new Commands.PANEL_ON_OFF Commands.DISPLAY_BROADCAST [1])

/-- DisplayControl::set_power_on for BroadcastCommandBuilder in
src/client.rs: send POWER_CONTROL with payload [1] to DISPLAY_BROADCAST
through plain send_packet, awaiting no reply. -/
def set_power_on (outbound : List Nat) : List Nat :=
  send_packet outbound (Proto.Packet.new Commands.POWER_CONTROL Commands.DISPLAY_BROADCAST [1])

/-- DisplayControl::set_power_off for BroadcastCommandBuilder in
src/client.rs: send POWER_CONTROL with payload [0] to DISPLAY_BROADCAST
through plain send_packet, awaiting no reply. -/
def set_power_off (outbound : List Nat) : List Nat :=
  send_packet outbound (Proto.Packet.new Commands.POWER_CONTROL Commands.DISPLAY_BROADCAST [0])

end BroadcastCommandBuilder

end Client

section Helpers

/-- Indexing past four fixed leading bytes lands in the remainder. -/
theorem aux_getElem?_cons4 (a b c d : Nat) (l : List Nat) (n : Nat) :
    (a :: b :: c :: d :: l)[4 + n]? = l[n]? := by
  rw [show 4 + n = n + 1 + 1 + 1 + 1 by omega]
  simp [List.getElem?_cons_succ]

/-- Taking four fixed leading bytes and n more splits off the remainder. -/
theorem aux_take_cons4 (a b c d : Nat) (l : List Nat) (n : Nat) :
    (a :: b :: c :: d :: l).take (4 + n) = a :: b :: c :: d :: l.take n := by
  rw [show 4 + n = n + 1 + 1 + 1 + 1 by omega]
  simp [List.take_succ_cons]

/-- Dropping four fixed leading bytes and n more drops into the remainder. -/
theorem aux_drop_cons4 (a b c d : Nat) (l : List Nat) (n : Nat) :
    (a :: b :: c :: d :: l).drop (4 + n) = l.drop n := by
  rw [show 4 + n = n + 1 + 1 + 1 + 1 by omega]
  simp [List.drop_succ_cons]

end Helpers

/-- Case analysis on Packet.from_bytes: every failure leaves the buffer as it
was, and every success drops exactly the bytes of the parsed frame, whose
count is the frame head plus the payload plus the checksum byte. -/
theorem aux_from_bytes_cases (input : List Nat) :
    (∃ e, Proto.Packet.from_bytes input = (.error e, input)) ∨
    (∃ p n, Proto.Packet.from_bytes input = (.ok (p, n), input.drop n) ∧
      n = 4 + p.data.length + 1) := by
  unfold Proto.Packet.from_bytes
  split
  · exact .inl ⟨_, rfl⟩
  next header h0 =>
    split
    · exact .inl ⟨_, rfl⟩
    next hheader =>
      split
      · exact .inl ⟨_, rfl⟩
      next command h1 =>
        split
        · exact .inl ⟨_, rfl⟩
        next display_id h2 =>
          split
          · exact .inl ⟨_, rfl⟩
          next data_length h3 =>
            split
            · exact .inl ⟨_, rfl⟩
            next given_checksum h4 =>
              show (∃ e, (if _ ≠ _ then _ else _) = _) ∨ _
              by_cases hchk :
                  (command + display_id + data_length +
                    (List.take data_length (List.drop 4 input)).sum) % 256 = given_checksum
              · rw [if_neg (by simpa using hchk)]
                by_cases hlen : input.length ≤ 4 + data_length
                · rw [if_pos hlen]
                  exact .inl ⟨_, rfl⟩
                · rw [if_neg hlen]
                  refine .inr ⟨_, _, rfl, ?_⟩
                  simp only [List.length_take, List.length_drop]
                  omega
              · rw [if_pos (by simpa using hchk)]
                exact .inl ⟨_, rfl⟩

/-- Claim C1: for every command byte, target byte and payload of at most 255
bytes, decoding the buffer produced by encoding the triple succeeds, returns
exactly the original command, target and payload, consumes 4 + payload
length + 1 bytes and leaves the buffer empty. -/
theorem decode_encode_round_trip (command display_id : Nat) (data : List Nat)
    (_hcommand : command < 256) (_hdisplay : display_id < 256)
    (_hdata : ∀ b ∈ data, b < 256) (hlen : data.length ≤ 255) :
    Proto.Packet.from_bytes (Proto.Packet.new command display_id data).into_bytes =
      (.ok (Proto.Packet.new command display_id data, 4 + data.length + 1), []) := by
  have hmod : data.length % 256 = data.length := Nat.mod_eq_of_lt (by omega)
  have hbytes : (Proto.Packet.new command display_id data).into_bytes =
      0xAA :: command :: display_id :: data.length ::
        (data ++ [(command + display_id + data.length + data.sum) % 256]) := by
    simp [Proto.Packet.into_bytes, Proto.Packet.checksum, Proto.Packet.new, hmod]
  rw [hbytes]
  have h0 : (0xAA :: command :: display_id :: data.length ::
      (data ++ [(command + display_id + data.length + data.sum) % 256]))[0]? =
      some 0xAA := rfl
  have h1 : (0xAA :: command :: display_id :: data.length ::
      (data ++ [(command + display_id + data.length + data.sum) % 256]))[1]? =
      some command := rfl
  have h2 : (0xAA :: command :: display_id :: data.length ::
      (data ++ [(command + display_id + data.length + data.sum) % 256]))[2]? =
      some display_id := rfl
  have h3 : (0xAA :: command :: display_id :: data.length ::
      (data ++ [(command + display_id + data.length + data.sum) % 256]))[3]? =
      some data.length := by simp
  have h4 : (0xAA :: command :: display_id :: data.length ::
      (data ++ [(command + display_id + data.length + data.sum) % 256]))[4 + data.length]? =
      some ((command + display_id + data.length + data.sum) % 256) := by
    rw [aux_getElem?_cons4, List.getElem?_append_right (Nat.le_refl _)]
    simp
  have hdrop4 : (0xAA :: command :: display_id :: data.length ::
      (data ++ [(command + display_id + data.length + data.sum) % 256])).drop 4 =
      data ++ [(command + display_id + data.length + data.sum) % 256] := rfl
  have htake5 : (0xAA :: command :: display_id :: data.length ::
      (data ++ [(command + display_id + data.length + data.sum) % 256])).take
        (4 + data.length + 1) =
      0xAA :: command :: display_id :: data.length ::
        (data ++ [(command + display_id + data.length + data.sum) % 256]) := by
    rw [show 4 + data.length + 1 = 4 + (data.length + 1) by omega, aux_take_cons4]
    rw [List.take_of_length_le (by simp)]
  have hdropall : (0xAA :: command :: display_id :: data.length ::
      (data ++ [(command + display_id + data.length + data.sum) % 256])).drop
        (4 + data.length + 1) = [] := by
    rw [show 4 + data.length + 1 = 4 + (data.length + 1) by omega, aux_drop_cons4]
    exact List.drop_eq_nil_of_le (by simp)
  have htakedata : (data ++ [(command + display_id + data.length + data.sum) % 256]).take
      data.length = data := List.take_left' rfl
  unfold Proto.Packet.from_bytes
  rw [h0]
  simp only [h1, h2, h3, h4, hdrop4, htake5, hdropall, htakedata]
  simp [Proto.Packet.new]
  omega

/-- Witness for decode_encode_round_trip: the literal frame of the source
tests with command 0x4A, target 0x00 and payload [0x00]. -/
theorem decode_encode_round_trip_witness :
    Proto.Packet.from_bytes (Proto.Packet.new 0x4A 0x00 [0x00]).into_bytes =
      (.ok (Proto.Packet.new 0x4A 0x00 [0x00], 6), []) :=
  decode_encode_round_trip 0x4A 0x00 [0x00] (by decide) (by decide)
    (by decide) (by decide)

/-- Claim C2: Packet::from_bytes either fails and leaves the buffer exactly
as it was, or succeeds, removes exactly 4 + payload-length + 1 bytes from the
front of the buffer (leaving any following bytes untouched as the rest of the
buffer) and returns a consumed count equal to 4 + payload-length + 1. -/
theorem from_bytes_frame_effect (input : List Nat) :
    (∃ e, Proto.Packet.from_bytes input = (.error e, input)) ∨
    (∃ p n, Proto.Packet.from_bytes input = (.ok (p, n), input.drop n) ∧
      n = 4 + p.data.length + 1) :=
  aux_from_bytes_cases input

/-- Claim C3: the checksum of a frame is the exact integer sum of command,
target, payload length and payload bytes, truncated to 8 bits, excluding the
0xAA header and the checksum byte itself; in particular command 0x11, target
0xFE, payload [1] gives 0x11 and command 0xB9, target 0x00, payload [0x00]
gives 0xBA. -/
theorem checksum_spec :
    (∀ p : Proto.Packet,
      p.checksum = (p.command + p.display_id + p.data.length + p.data.sum) % 256) ∧
    (Proto.Packet.new 0x11 0xFE [1]).checksum = 0x11 ∧
    (Proto.Packet.new 0xB9 0x00 [0x00]).checksum = 0xBA :=
  ⟨fun _ => rfl, rfl, rfl⟩

/-- Claim C8 counterexample: the one-byte buffer [0x00] is shorter than any
complete frame (4 + payload-length + 1 is at least 5, so its checksum byte is
certainly absent), yet Packet::from_bytes reports InvalidHeader, not
IncompleteInput: the header test runs before every length test. -/
theorem from_bytes_short_nonheader_counterexample :
    Proto.Packet.from_bytes [0x00] = (.error .InvalidHeader, [0x00]) ∧
    ([0x00] : List Nat).length < 4 + 0 + 1 ∧
    Proto.Error.InvalidHeader ≠ Proto.Error.IncompleteInput :=
  ⟨rfl, by decide, by decide⟩

/-- Claim C8 (amended): every buffer that is empty, or that starts with the
header byte 0xAA and is shorter than 4 + payload-length + 1 bytes (the
checksum byte not yet present), makes Packet::from_bytes report
IncompleteInput — never InvalidChecksum — and leaves the buffer completely
unmodified.  A nonempty short buffer whose first byte is not 0xAA instead
reports InvalidHeader, since the header test runs first. -/
theorem from_bytes_incomplete_input (input : List Nat)
    (h : input = [] ∨
      (input[0]? = some 0xAA ∧ input.length < 4 + (input[3]?.getD 0) + 1)) :
    Proto.Packet.from_bytes input = (.error .IncompleteInput, input) := by
  rcases h with h | ⟨h0, hshort⟩
  · subst h; rfl
  · rcases input with _ | ⟨a, _ | ⟨b, _ | ⟨c, _ | ⟨dl, rest⟩⟩⟩⟩
    · simp at h0
    · simp only [List.getElem?_cons_zero, Option.some.injEq] at h0
      subst h0; rfl
    · simp only [List.getElem?_cons_zero, Option.some.injEq] at h0
      subst h0; rfl
    · simp only [List.getElem?_cons_zero, Option.some.injEq] at h0
      subst h0; rfl
    · simp only [List.getElem?_cons_zero, Option.some.injEq] at h0
      subst h0
      simp only [List.getElem?_cons_succ, List.getElem?_cons_zero, Option.getD_some,
        List.length_cons] at hshort
      have hnone : rest[dl]? = none := List.getElem?_eq_none (by omega)
      unfold Proto.Packet.from_bytes
      simp only [aux_getElem?_cons4, hnone, List.getElem?_cons_succ,
        List.getElem?_cons_zero]
      simp

/-- Witness for from_bytes_incomplete_input: the two-byte buffer 0xAA 0x11 is
a strict prefix of a frame and parses as IncompleteInput. -/
theorem from_bytes_incomplete_input_witness :
    Proto.Packet.from_bytes [0xAA, 0x11] = (.error .IncompleteInput, [0xAA, 0x11]) :=
  from_bytes_incomplete_input [0xAA, 0x11] (.inr ⟨rfl, by decide⟩)

/-- Claim C10: Packet::into_bytes enforces no payload-length bound: the
length byte it writes at offset 3 is the payload length reduced modulo 256,
so for any payload of 256 or more bytes the encoded length byte differs from
the true payload length and the wire invariant is violated. -/
theorem into_bytes_length_byte (p : Proto.Packet) :
    p.into_bytes[3]? = some (p.data.length % 256) ∧
    (256 ≤ p.data.length → p.into_bytes[3]? ≠ some p.data.length) := by
  have hb : p.into_bytes[3]? = some (p.data.length % 256) := by
    simp [Proto.Packet.into_bytes]
  refine ⟨hb, fun h256 hcontra => ?_⟩
  rw [hb, Option.some.injEq] at hcontra
  have hmod : p.data.length % 256 < 256 := Nat.mod_lt _ (by omega)
  omega

/-- Eliminator for a successful parse: the remaining buffer is the input
without its first n bytes and n is the frame size. -/
theorem aux_from_bytes_ok_elim (input : List Nat) (p : Proto.Packet) (n : Nat)
    (b2 : List Nat) (h : Proto.Packet.from_bytes input = (.ok (p, n), b2)) :
    b2 = input.drop n ∧ n = 4 + p.data.length + 1 := by
  rcases aux_from_bytes_cases input with ⟨e, he⟩ | ⟨p2, n2, he, hn⟩
  · rw [h] at he
    simp at he
  · rw [h] at he
    simp only [Prod.mk.injEq, Except.ok.injEq] at he
    obtain ⟨⟨hp, hn2⟩, hb⟩ := he
    subst hp hn2
    exact ⟨hb, hn⟩

/-- One-step unfolding of the recv_packet loop. -/
theorem aux_recv_packet_eq (stream : List (List Nat)) (buffer : List Nat) :
    Client.recv_packet stream buffer =
      match Proto.Packet.from_bytes buffer with
      | (.ok (p, _), buffer2) => (.ok p, buffer2, stream)
      | (.error .IncompleteInput, _) =>
        match stream with
        | [] => (.error .UnexpectedEndOfStream, buffer, [])
        | chunk :: rest =>
          if chunk.length = 0 then (.error .UnexpectedEndOfStream, buffer, rest)
          else Client.recv_packet rest (buffer ++ chunk)
      | (.error e, _) => (.error (.InvalidPacket e), [], stream) := by
  cases stream <;> rfl

/-- Claim C4: MDCSession::recv_packet loops as follows: a successful decode
of the accumulation buffer returns the packet at once; while decoding reports
IncompleteInput, one blocking read is performed and the bytes read are
appended to the accumulation buffer before retrying; a zero-byte read (an
empty chunk or an exhausted stream) fails with the distinct
UnexpectedEndOfStream error; any decode failure other than IncompleteInput
clears the accumulation buffer entirely and is returned as an InvalidPacket
error. -/
theorem recv_packet_spec (stream : List (List Nat)) (buffer : List Nat) :
    (∀ p n buffer2, Proto.Packet.from_bytes buffer = (.ok (p, n), buffer2) →
      Client.recv_packet stream buffer = (.ok p, buffer2, stream)) ∧
    ((Proto.Packet.from_bytes buffer).1 = .error .IncompleteInput →
      (stream = [] →
        Client.recv_packet stream buffer = (.error .UnexpectedEndOfStream, buffer, [])) ∧
      (∀ rest, stream = [] :: rest →
        Client.recv_packet stream buffer = (.error .UnexpectedEndOfStream, buffer, rest)) ∧
      (∀ chunk rest, stream = chunk :: rest → chunk ≠ [] →
        Client.recv_packet stream buffer = Client.recv_packet rest (buffer ++ chunk))) ∧
    (∀ e, e ≠ Proto.Error.IncompleteInput →
      (Proto.Packet.from_bytes buffer).1 = .error e →
      Client.recv_packet stream buffer = (.error (.InvalidPacket e), [], stream)) := by
  refine ⟨?_, ?_, ?_⟩
  · intro p n buffer2 h
    rw [aux_recv_packet_eq, h]
  · intro hinc
    rcases hfb : Proto.Packet.from_bytes buffer with ⟨r, b2⟩
    rw [hfb] at hinc
    simp only at hinc
    subst hinc
    refine ⟨?_, ?_, ?_⟩
    · intro hs
      subst hs
      rw [aux_recv_packet_eq, hfb]
    · intro rest hs
      subst hs
      rw [aux_recv_packet_eq, hfb]
      simp
    · intro chunk rest hs hchunk
      subst hs
      rw [aux_recv_packet_eq, hfb]
      simp only [List.length_eq_zero]
      rw [if_neg hchunk]
  · intro e hne hfb1
    rcases hfb : Proto.Packet.from_bytes buffer with ⟨r, b2⟩
    rw [hfb] at hfb1
    simp only at hfb1
    subst hfb1
    cases e with
    | InvalidHeader => rw [aux_recv_packet_eq, hfb]
    | IncompleteInput => exact absurd rfl hne
    | InvalidChecksum => rw [aux_recv_packet_eq, hfb]

/-- Witness for recv_packet_spec: a desynchronized two-byte buffer makes
recv_packet fail with InvalidHeader and clear the accumulation buffer. -/
theorem recv_packet_spec_witness :
    Client.recv_packet [] [0x01, 0x02] =
      (.error (.InvalidPacket .InvalidHeader), [], []) :=
  (recv_packet_spec [] [0x01, 0x02]).2.2 .InvalidHeader (by decide) rfl

/-- Claim C9 counterexample: with the accumulation buffer holding the single
byte 0x00 and nothing to read, recv_packet extracts no frame (it fails with
InvalidHeader) yet the accumulation buffer shrinks from one byte to empty:
the buffer is cleared on a decode failure other than IncompleteInput, a
shrink not caused by extracting a complete frame from the front. -/
theorem recv_packet_clears_buffer_counterexample :
    Client.recv_packet [] [0x00] = (.error (.InvalidPacket .InvalidHeader), [], []) ∧
    ([0x00] : List Nat) ≠ [] :=
  ⟨rfl, by decide⟩

/-- Claim C9 (amended): across any recv_packet call the accumulation buffer
grows only by appending chunks read from the stream, and shrinks only when a
complete frame is successfully extracted from its front — except that a
decode failure other than IncompleteInput clears it entirely; the send
operations never touch it (structurally, they act on the outbound bytes
only). -/
theorem recv_packet_buffer_discipline (stream : List (List Nat)) (buffer : List Nat) :
    ∃ consumed rest, stream = consumed ++ rest ∧
      (Client.recv_packet stream buffer).2.2 = rest ∧
      ((∃ p n, (Client.recv_packet stream buffer).1 = .ok p ∧
          Proto.Packet.from_bytes (buffer ++ consumed.flatten) =
            (.ok (p, n), (buffer ++ consumed.flatten).drop n) ∧
          (Client.recv_packet stream buffer).2.1 =
            (buffer ++ consumed.flatten).drop n) ∨
       ((Client.recv_packet stream buffer).1 = .error .UnexpectedEndOfStream ∧
          (Client.recv_packet stream buffer).2.1 = buffer ++ consumed.flatten) ∨
       (∃ e, (Client.recv_packet stream buffer).1 = .error (.InvalidPacket e) ∧
          (Client.recv_packet stream buffer).2.1 = [])) := by
  induction stream generalizing buffer with
  | nil =>
    refine ⟨[], [], rfl, ?_⟩
    rcases hfb : Proto.Packet.from_bytes buffer with ⟨r, b2⟩
    match r, hfb with
    | .ok (p, n), hfb =>
      obtain ⟨hb2, -⟩ := aux_from_bytes_ok_elim buffer p n b2 hfb
      subst hb2
      rw [aux_recv_packet_eq, hfb]
      exact ⟨rfl, .inl ⟨p, n, rfl, by simpa using hfb, by simp⟩⟩
    | .error .IncompleteInput, hfb =>
      rw [aux_recv_packet_eq, hfb]
      exact ⟨rfl, .inr (.inl ⟨rfl, by simp⟩)⟩
    | .error .InvalidHeader, hfb =>
      rw [aux_recv_packet_eq, hfb]
      exact ⟨rfl, .inr (.inr ⟨_, rfl, rfl⟩)⟩
    | .error .InvalidChecksum, hfb =>
      rw [aux_recv_packet_eq, hfb]
      exact ⟨rfl, .inr (.inr ⟨_, rfl, rfl⟩)⟩
  | cons chunk rest0 ih =>
    rcases hfb : Proto.Packet.from_bytes buffer with ⟨r, b2⟩
    match r, hfb with
    | .ok (p, n), hfb =>
      obtain ⟨hb2, -⟩ := aux_from_bytes_ok_elim buffer p n b2 hfb
      subst hb2
      refine ⟨[], chunk :: rest0, rfl, ?_⟩
      rw [aux_recv_packet_eq, hfb]
      exact ⟨rfl, .inl ⟨p, n, rfl, by simpa using hfb, by simp⟩⟩
    | .error .IncompleteInput, hfb =>
      by_cases hchunk : chunk.length = 0
      · rw [List.length_eq_zero] at hchunk
        subst hchunk
        refine ⟨[[]], rest0, rfl, ?_⟩
        rw [aux_recv_packet_eq, hfb]
        simp only [List.length_nil, if_pos rfl]
        exact ⟨rfl, .inr (.inl ⟨rfl, by simp⟩)⟩
      · obtain ⟨consumed2, rest2, hs, hr, hdisj⟩ := ih (buffer ++ chunk)
        refine ⟨chunk :: consumed2, rest2, by rw [hs]; rfl, ?_⟩
        have hstep : Client.recv_packet (chunk :: rest0) buffer =
            Client.recv_packet rest0 (buffer ++ chunk) := by
          rw [aux_recv_packet_eq, hfb]
          simp only [hchunk, if_false]
        rw [hstep]
        have hflat : buffer ++ (chunk :: consumed2).flatten =
            (buffer ++ chunk) ++ consumed2.flatten := by
          simp [List.append_assoc]
        rw [hflat]
        exact ⟨hr, hdisj⟩
    | .error .InvalidHeader, hfb =>
      refine ⟨[], chunk :: rest0, rfl, ?_⟩
      rw [aux_recv_packet_eq, hfb]
      exact ⟨rfl, .inr (.inr ⟨_, rfl, rfl⟩)⟩
    | .error .InvalidChecksum, hfb =>
      refine ⟨[], chunk :: rest0, rfl, ?_⟩
      rw [aux_recv_packet_eq, hfb]
      exact ⟨rfl, .inr (.inr ⟨_, rfl, rfl⟩)⟩

set_option maxRecDepth 4000 in
/-- Witness for into_bytes_length_byte at a payload of 256 zero bytes, whose
encoded length byte is 0. -/
theorem into_bytes_length_byte_witness :
    (Proto.Packet.new 0 0 (List.replicate 256 0)).into_bytes[3]? = some 0 ∧
    (Proto.Packet.new 0 0 (List.replicate 256 0)).into_bytes[3]? ≠ some 256 := by
  constructor
  · have h := (into_bytes_length_byte (Proto.Packet.new 0 0 (List.replicate 256 0))).1
    simpa using h
  · have h := (into_bytes_length_byte (Proto.Packet.new 0 0 (List.replicate 256 0))).2
      (by simp [Proto.Packet.new])
    simpa using h

/-- Claim C5: send_packet_ack writes the encoded frame and then receives one
reply; a receive failure propagates; a reply whose command id is not 0xFF
fails with UnexpectedResponse carrying the reply frame; a reply whose first
payload byte is absent or differs from 0x41 (ASCII letter A) fails with Nack
carrying the reply frame; otherwise the reply is returned. -/
theorem send_packet_ack_spec (stream : List (List Nat)) (buffer outbound : List Nat)
    (q : Proto.Packet) :
    (Client.send_packet_ack stream buffer outbound q).2.2.2 =
      outbound ++ q.into_bytes ∧
    (∀ e buffer2 stream2,
      Client.recv_packet stream buffer = (.error e, buffer2, stream2) →
      (Client.send_packet_ack stream buffer outbound q).1 = .error e) ∧
    (∀ reply buffer2 stream2,
      Client.recv_packet stream buffer = (.ok reply, buffer2, stream2) →
      (reply.command ≠ 0xFF →
        (Client.send_packet_ack stream buffer outbound q).1 =
          .error (.UnexpectedResponse reply)) ∧
      (reply.command = 0xFF → reply.data.head? = none →
        (Client.send_packet_ack stream buffer outbound q).1 = .error (.Nack reply)) ∧
      (∀ b, reply.command = 0xFF → reply.data.head? = some b → b ≠ 0x41 →
        (Client.send_packet_ack stream buffer outbound q).1 = .error (.Nack reply)) ∧
      (∀ b, reply.command = 0xFF → reply.data.head? = some b → b = 0x41 →
        (Client.send_packet_ack stream buffer outbound q).1 = .ok reply)) := by
  refine ⟨?_, ?_, ?_⟩
  · unfold Client.send_packet_ack Client.send_packet
    rcases hr : Client.recv_packet stream buffer with ⟨r, b2, s2⟩
    match r with
    | .error e => rfl
    | .ok reply =>
      by_cases hc : reply.command = Commands.ACK_NACK
      · simp only [hc, ne_eq, not_true_eq_false, if_false]
        match reply.data.head? with
        | none => rfl
        | some it =>
          by_cases hit : it = 0x41
          · simp [hit]
          · simp [hit]
      · simp [hc]
  · intro e buffer2 stream2 h
    unfold Client.send_packet_ack
    rw [h]
  · intro reply buffer2 stream2 h
    refine ⟨?_, ?_, ?_, ?_⟩
    · intro hc
      unfold Client.send_packet_ack
      rw [h]
      simp [Commands.ACK_NACK, hc]
    · intro hc hhead
      unfold Client.send_packet_ack
      rw [h]
      simp [Commands.ACK_NACK, hc, hhead]
    · intro b hc hhead hb
      unfold Client.send_packet_ack
      rw [h]
      simp [Commands.ACK_NACK, hc, hhead, hb]
    · intro b hc hhead hb
      subst hb
      unfold Client.send_packet_ack
      rw [h]
      simp [Commands.ACK_NACK, hc, hhead]

/-- Witness for send_packet_ack_spec: a reply frame with the acknowledge
command id 0xFF whose first payload byte is 0x4E (the ASCII letter N, not A)
produces a negative acknowledgement carrying the reply. -/
theorem send_packet_ack_spec_witness :
    (Client.send_packet_ack [[0xAA, 0xFF, 0x00, 0x01, 0x4E, 0x4E]] [] []
        (Proto.Packet.new 0x11 0x00 [1])).1 =
      .error (.Nack (Proto.Packet.new 0xFF 0x00 [0x4E])) :=
  ((send_packet_ack_spec [[0xAA, 0xFF, 0x00, 0x01, 0x4E, 0x4E]] [] []
      (Proto.Packet.new 0x11 0x00 [1])).2.2
    (Proto.Packet.new 0xFF 0x00 [0x4E]) [] [] rfl).2.2.1 0x4E rfl rfl (by decide)

/-- Claim C6: the addressed dispatcher sends panel-on as command 0xF9 with
payload [0], panel-off as 0xF9 with [1], power-on as 0x11 with [1] and
power-off as 0x11 with [0], each through send_packet_ack addressed to its
display id and discarding the acknowledged reply; the broadcast dispatcher
sends exactly the same four command and payload pairs to target 0xFE through
plain send_packet, whose written bytes are the encoded frame appended to the
outbound bytes, awaiting no reply. -/
theorem dispatcher_command_table (display_id : Nat) (stream : List (List Nat))
    (buffer outbound : List Nat) :
    (Client.DisplayCommandBuilder.set_panel_on display_id stream buffer outbound =
      ((Client.send_packet_ack stream buffer outbound
          (Proto.Packet.new 0xF9 display_id [0])).1.map (fun _ => ()),
       (Client.send_packet_ack stream buffer outbound
          (Proto.Packet.new 0xF9 display_id [0])).2)) ∧
    (Client.DisplayCommandBuilder.set_panel_off display_id stream buffer outbound =
      ((Client.send_packet_ack stream buffer outbound
          (Proto.Packet.new 0xF9 display_id [1])).1.map (fun _ => ()),
       (Client.send_packet_ack stream buffer outbound
          (Proto.Packet.new 0xF9 display_id [1])).2)) ∧
    (Client.DisplayCommandBuilder.set_power_on display_id stream buffer outbound =
      ((Client.send_packet_ack stream buffer outbound
          (Proto.Packet.new 0x11 display_id [1])).1.map (fun _ => ()),
       (Client.send_packet_ack stream buffer outbound
          (Proto.Packet.new 0x11 display_id [1])).2)) ∧
    (Client.DisplayCommandBuilder.set_power_off display_id stream buffer outbound =
      ((Client.send_packet_ack stream buffer outbound
          (Proto.Packet.new 0x11 display_id [0])).1.map (fun _ => ()),
       (Client.send_packet_ack stream buffer outbound
          (Proto.Packet.new 0x11 display_id [0])).2)) ∧
    Client.BroadcastCommandBuilder.set_panel_on outbound =
      Client.send_packet outbound (Proto.Packet.new 0xF9 0xFE [0]) ∧
    Client.BroadcastCommandBuilder.set_panel_off outbound =
      Client.send_packet outbound (Proto.Packet.new 0xF9 0xFE [1]) ∧
    Client.BroadcastCommandBuilder.set_power_on outbound =
      Client.send_packet outbound (Proto.Packet.new 0x11 0xFE [1]) ∧
    Client.BroadcastCommandBuilder.set_power_off outbound =
      Client.send_packet outbound (Proto.Packet.new 0x11 0xFE [0]) ∧
    Client.send_packet outbound (Proto.Packet.new 0xF9 0xFE [0]) =
      outbound ++ (Proto.Packet.new 0xF9 0xFE [0]).into_bytes := by
  have hmap : ∀ (s : List (List Nat)) (b o : List Nat) (q : Proto.Packet),
      (match Client.send_packet_ack s b o q with
        | (.error e, rest) => (.error e, rest)
        | (.ok _, rest) => ((.ok () : Except Crate.Error Unit), rest)) =
      ((Client.send_packet_ack s b o q).1.map (fun _ => ()),
       (Client.send_packet_ack s b o q).2) := by
    intro s b o q
    rcases Client.send_packet_ack s b o q with ⟨r, rest⟩
    match r with
    | .ok reply => rfl
    | .error e => rfl
  exact ⟨hmap stream buffer outbound _, hmap stream buffer outbound _,
    hmap stream buffer outbound _, hmap stream buffer outbound _,
    rfl, rfl, rfl, rfl, rfl⟩

/-- Claim C7, recorded against the model: get_power_status and
get_panel_status send an empty-payload frame with command id 0x11 or 0xF9
respectively and read the status byte at payload offset 2 of the
acknowledged reply; byte 0x00 and 0x01 decode to PowerStatus On and Off and
to PanelStatus Off and On; the byte 0x02 fails with the invalid-status-value
error.  In the source that last failure cannot actually be produced: the
question-mark operator in the two getters would need a From conversion from
InvalidValueError to the crate error, and none exists, so the getters do not
type-check as written; the model realizes the intended conversion as
Crate.Error.InvalidValue.  The replies below acknowledge with first payload
byte 0x41 and carry the status byte at offset 2. -/
theorem get_status_eval :
    (Client.DisplayCommandBuilder.get_power_status 0
        [[0xAA, 0xFF, 0x00, 0x03, 0x41, 0x11, 0x00, 0x54]] [] []).1 = .ok .On ∧
    (Client.DisplayCommandBuilder.get_power_status 0
        [[0xAA, 0xFF, 0x00, 0x03, 0x41, 0x11, 0x01, 0x55]] [] []).1 = .ok .Off ∧
    (Client.DisplayCommandBuilder.get_panel_status 0
        [[0xAA, 0xFF, 0x00, 0x03, 0x41, 0x11, 0x00, 0x54]] [] []).1 = .ok .Off ∧
    (Client.DisplayCommandBuilder.get_panel_status 0
        [[0xAA, 0xFF, 0x00, 0x03, 0x41, 0x11, 0x01, 0x55]] [] []).1 = .ok .On ∧
    (Client.DisplayCommandBuilder.get_power_status 0
        [[0xAA, 0xFF, 0x00, 0x03, 0x41, 0x11, 0x02, 0x56]] [] []).1 =
      .error .InvalidValue ∧
    (Client.DisplayCommandBuilder.get_panel_status 0
        [[0xAA, 0xFF, 0x00, 0x03, 0x41, 0x11, 0x02, 0x56]] [] []).1 =
      .error .InvalidValue ∧
    (Client.DisplayCommandBuilder.get_power_status 0
        [[0xAA, 0xFF, 0x00, 0x03, 0x41, 0x11, 0x02, 0x56]] [] []).2.2.2 =
      (Proto.Packet.new 0x11 0 []).into_bytes ∧
    (Client.DisplayCommandBuilder.get_panel_status 0
        [[0xAA, 0xFF, 0x00, 0x03, 0x41, 0x11, 0x02, 0x56]] [] []).2.2.2 =
      (Proto.Packet.new 0xF9 0 []).into_bytes :=
  ⟨rfl, rfl, rfl, rfl, rfl, rfl, rfl, rfl⟩
